import Mathlib

/-!
Shallow embedding of `ec2_config.py` (EC2 configuration loader for the
AWS Database Migration Analyzer) and verification of the specification
claims about it.

The Python module resolves configuration from a `.env` file, a Firebase
JSON credential file and process environment variables into a nested
mapping (`EC2Secrets._build_config`) and exposes dictionary-style
accessors.  We model:

  * the process environment as `Env := String → Option String`
    (`none` = variable unset);
  * the filesystem as `FS := String → Option String`
    (`none` = file does not exist, `some c` = file with contents `c`);
  * Python values stored in the configuration as a small `Json` type
    (the configuration sections are dicts of strings, ints, bools, or
    arbitrary values decoded from JSON);
  * fallible Python operations (`int(...)`, item assignment into a
    non-dict) as `Except PyErr`.

Unicode-related corners are modelled at the ASCII level (`str.lower`,
`str.strip`, `int()` whitespace), which is where all configuration
values of this program live.
-/

namespace EC2

/-- A process environment: `none` means the variable is unset. -/
def Env := String → Option String

/-- `os.getenv(k)` — `None` when unset. -/
def getenv (env : Env) (k : String) : Option String := env k

/-- `os.getenv(k, d)` — the default is used only when the variable is unset
(an empty-string value is returned as is). -/
def getenvD (env : Env) (k d : String) : String := (env k).getD d

/-- Python truthiness of an `os.getenv` result (`None` and `""` are falsy). -/
def truthyStr : Option String → Bool
  | none => false
  | some s => !(s == "")

/-- `os.environ[k] = v` — assignment overwrites any existing value. -/
def setEnv (env : Env) (k v : String) : Env :=
  fun x => if x == k then some v else env x

/-- Remove a variable from the environment. -/
def unsetEnv (env : Env) (k : String) : Env :=
  fun x => if x == k then none else env x

/-- The empty environment. -/
def emptyEnv : Env := fun _ => none

/-- Build an environment from a list of assignments (later entries win). -/
def envOf (l : List (String × String)) : Env :=
  l.foldl (fun e p => setEnv e p.1 p.2) emptyEnv

/-- ASCII whitespace stripped by `str.strip()` / `int()`. -/
def pyWhitespace (c : Char) : Bool :=
  c == ' ' || c == '\t' || c == '\n' || c == '\r' || c == '\x0b' || c == '\x0c'

/-- Strip characters satisfying `p` from both ends of a character list. -/
def stripEnds (p : Char → Bool) (l : List Char) : List Char :=
  ((l.dropWhile p).reverse.dropWhile p).reverse

/-- Python `s.strip()` (whitespace at both ends). -/
def pyStrip (s : String) : String :=
  String.mk (stripEnds pyWhitespace s.toList)

/-- Python `s.strip(chars)`: remove every leading and trailing character
that belongs to `cs` (not just one layer, and not only matched pairs). -/
def pyStripChars (cs : List Char) (s : String) : String :=
  String.mk (stripEnds (fun c => cs.contains c) s.toList)

/-- Python `s.lower()` restricted to ASCII. -/
def pyLower (s : String) : String := String.mk (s.toList.map Char.toLower)

/-- One step of parsing a decimal digit string that may contain single
underscores between digits (Python `int` literal rule).  State:
accumulated value and whether the previous character was a digit. -/
def pyIntStep (st : Option (Nat × Bool)) (c : Char) : Option (Nat × Bool) :=
  st.bind fun ab =>
    if c.isDigit then some (ab.1 * 10 + (c.toNat - 48), true)
    else if c == '_' then (if ab.2 then some (ab.1, false) else none)
    else none

/-- Parse a nonempty digit string with optional single interior
underscores; fails on anything else. -/
def parseDigitsU (l : List Char) : Option Nat :=
  match l.foldl pyIntStep (some (0, false)) with
  | some (n, true) => some n
  | _ => none

/-- Python `int(s)` for base 10: strip whitespace, optional sign, digits
(with optional single underscores between digits); `none` models the
`ValueError` raised on any other input. -/
def pyInt (s : String) : Option Int :=
  match (pyStrip s).toList with
  | '+' :: rest => (parseDigitsU rest).map Int.ofNat
  | '-' :: rest => (parseDigitsU rest).map (fun n => -(Int.ofNat n))
  | l => (parseDigitsU l).map Int.ofNat

/-- Python values stored in the resolved configuration: the result of
`json.loads` plus the strings, integers and booleans the builder inserts.
A number is kept as mantissa and decimal exponent (`num m e` is
`m * 10 ^ e`); Python's `json.loads` additionally accepts the constants
`NaN`, `Infinity` and `-Infinity`. -/
inductive Json where
  | null : Json
  | bool : Bool → Json
  | num : Int → Int → Json
  | inf : Bool → Json
  | nan : Json
  | str : String → Json
  | arr : List Json → Json
  | obj : List (String × Json) → Json

/-- Python truthiness of a decoded JSON value (`None`, `False`, `0`,
`""`, `[]`, `{}` are falsy). -/
def jsonTruthy : Json → Bool
  | .null => false
  | .bool b => b
  | .num m _ => !(m == 0)
  | .inf _ => true
  | .nan => true
  | .str s => !(s == "")
  | .arr l => !l.isEmpty
  | .obj l => !l.isEmpty

/-- Python dict item assignment `d[k] = v`: update in place when the key
exists, otherwise append at the end (dicts preserve insertion order). -/
def dictSet (d : List (String × Json)) (k : String) (v : Json) :
    List (String × Json) :=
  if d.any (fun p => p.1 == k) then
    d.map (fun p => if p.1 == k then (k, v) else p)
  else d ++ [(k, v)]

/-- JSON whitespace (RFC 8259). -/
def jsonWs (c : Char) : Bool :=
  c == ' ' || c == '\t' || c == '\n' || c == '\r'

/-- Skip JSON whitespace. -/
def skipWs (l : List Char) : List Char := l.dropWhile jsonWs

/-- Value of a hexadecimal digit. -/
def hexVal (c : Char) : Option Nat :=
  if c.isDigit then some (c.toNat - 48)
  else if 'a' ≤ c && c ≤ 'f' then some (c.toNat - 87)
  else if 'A' ≤ c && c ≤ 'F' then some (c.toNat - 55)
  else none

/-- JSON string escape characters (other escapes are rejected). -/
def escChar : Char → Option Char
  | '"' => some '"'
  | '\\' => some '\\'
  | '/' => some '/'
  | 'b' => some '\x08'
  | 'f' => some '\x0c'
  | 'n' => some '\n'
  | 'r' => some '\r'
  | 't' => some '\t'
  | _ => none

/-- Parse the body of a JSON string (after the opening quote) up to the
closing quote; strict mode rejects raw control characters. -/
def parseStrAux : Nat → List Char → Option (List Char × List Char)
  | 0, _ => none
  | _ + 1, [] => none
  | fuel + 1, c :: r =>
    if c == '"' then some ([], r)
    else if c == '\\' then
      match r with
      | 'u' :: h1 :: h2 :: h3 :: h4 :: r2 => do
        let v1 ← hexVal h1
        let v2 ← hexVal h2
        let v3 ← hexVal h3
        let v4 ← hexVal h4
        let (s, r3) ← parseStrAux fuel r2
        some (Char.ofNat (((v1 * 16 + v2) * 16 + v3) * 16 + v4) :: s, r3)
      | e :: r2 => do
        let ec ← escChar e
        let (s, r3) ← parseStrAux fuel r2
        some (ec :: s, r3)
      | [] => none
    else if c.toNat < 32 then none
    else do
      let (s, r2) ← parseStrAux fuel r
      some (c :: s, r2)

/-- Digits of a decimal numeral to a natural number. -/
def digitsToNat (l : List Char) : Nat :=
  l.foldl (fun a c => a * 10 + (c.toNat - 48)) 0

/-- Parse the optional fractional part `.digits`; returns the fraction
digits (empty when absent) and the rest. -/
def parseFrac (l : List Char) : Option (List Char × List Char) :=
  match l with
  | '.' :: r =>
    let d := r.takeWhile Char.isDigit
    if d.isEmpty then none else some (d, r.dropWhile Char.isDigit)
  | _ => some ([], l)

/-- Parse the optional exponent part `[eE][+-]?digits`. -/
def parseExp (l : List Char) : Option (Int × List Char) :=
  match l with
  | c :: r =>
    if c == 'e' || c == 'E' then
      let (sgn, r1) : Int × List Char :=
        match r with
        | '+' :: t => (1, t)
        | '-' :: t => (-1, t)
        | t => (1, t)
      let d := r1.takeWhile Char.isDigit
      if d.isEmpty then none
      else some (sgn * Int.ofNat (digitsToNat d), r1.dropWhile Char.isDigit)
    else some (0, c :: r)
  | [] => some (0, [])

/-- Parse a JSON number (or `Infinity`/`-Infinity`/`NaN`, which Python's
`json.loads` accepts); the JSON grammar forbids leading zeros and a
leading `+`. -/
def parseNumber (l : List Char) : Option (Json × List Char) :=
  let (neg, l1) : Bool × List Char :=
    match l with
    | '-' :: r => (true, r)
    | _ => (false, l)
  if l1.take 8 = "Infinity".toList then some (.inf neg, l1.drop 8)
  else if !neg && l1.take 3 = "NaN".toList then some (.nan, l1.drop 3)
  else
    let intDigits := l1.takeWhile Char.isDigit
    if intDigits.isEmpty then none
    else if intDigits.length > 1 && intDigits.head? == some '0' then none
    else do
      let l2 := l1.dropWhile Char.isDigit
      let (fracDigits, l3) ← parseFrac l2
      let (e, l4) ← parseExp l3
      let mAbs := digitsToNat (intDigits ++ fracDigits)
      let m : Int := if neg then -(Int.ofNat mAbs) else Int.ofNat mAbs
      some (.num m (e - Int.ofNat fracDigits.length), l4)

mutual

/-- Parse one JSON value (fuel-bounded recursive-descent, mirroring the
grammar accepted by Python's `json.loads`). -/
def parseValue : Nat → List Char → Option (Json × List Char)
  | 0, _ => none
  | fuel + 1, l =>
    match skipWs l with
    | [] => none
    | c :: rest =>
      if c == 'n' then
        if rest.take 3 = "ull".toList then some (.null, rest.drop 3) else none
      else if c == 't' then
        if rest.take 3 = "rue".toList then some (.bool true, rest.drop 3)
        else none
      else if c == 'f' then
        if rest.take 4 = "alse".toList then some (.bool false, rest.drop 4)
        else none
      else if c == '"' then do
        let (s, r) ← parseStrAux (rest.length + 1) rest
        some (.str (String.mk s), r)
      else if c == '[' then
        match skipWs rest with
        | ']' :: r => some (.arr [], r)
        | r => do
          let (items, r2) ← parseArrayItems fuel r
          some (.arr items, r2)
      else if c == '{' then
        match skipWs rest with
        | '}' :: r => some (.obj [], r)
        | r => do
          let (pairs, r2) ← parseObjItems fuel r
          some (.obj (pairs.foldl (fun d p => dictSet d p.1 p.2) []), r2)
      else parseNumber (c :: rest)

/-- Parse the comma-separated items of a nonempty JSON array, including
the closing bracket. -/
def parseArrayItems : Nat → List Char → Option (List Json × List Char)
  | 0, _ => none
  | fuel + 1, l => do
    let (v, r) ← parseValue fuel l
    match skipWs r with
    | ',' :: r2 => do
      let (vs, r3) ← parseArrayItems fuel r2
      some (v :: vs, r3)
    | ']' :: r2 => some ([v], r2)
    | _ => none

/-- Parse the comma-separated members of a nonempty JSON object,
including the closing brace. -/
def parseObjItems : Nat → List Char → Option (List (String × Json) × List Char)
  | 0, _ => none
  | fuel + 1, l => do
    match skipWs l with
    | '"' :: r => do
      let (k, r2) ← parseStrAux (r.length + 1) r
      match skipWs r2 with
      | ':' :: r3 => do
        let (v, r4) ← parseValue fuel r3
        match skipWs r4 with
        | ',' :: r5 => do
          let (ps, r6) ← parseObjItems fuel r5
          some ((String.mk k, v) :: ps, r6)
        | '}' :: r5 => some ([(String.mk k, v)], r5)
        | _ => none
      | _ => none
    | _ => none

end

/-- Python `json.loads`: parse a full JSON document; `none` models the
`json.JSONDecodeError` raised on invalid input (trailing garbage
included). -/
def pyJsonLoads (s : String) : Option Json := do
  let (v, r) ← parseValue (2 * s.length + 4) s.toList
  if (skipWs r).isEmpty then some v else none

/-- Whether the first character of a string is `c` (a reducible stand-in
for `str.startswith` on a single character). -/
def firstCharIs (c : Char) (s : String) : Bool :=
  match s.toList with
  | d :: _ => d == c
  | [] => false

/-- One line of `EC2Secrets._load_env_file`: strip the line, skip empty
and `#`-comment lines, split on the first `=`, strip the key, strip the
value of whitespace then of `"` then of `'` characters, and assign into
the process environment. -/
def parseEnvLine (env : Env) (rawLine : String) : Env :=
  let line := pyStrip rawLine
  if line == "" || firstCharIs '#' line then env
  else if line.toList.contains '=' then
    let k := line.toList.takeWhile (fun c => !(c == '='))
    let v := (line.toList.dropWhile (fun c => !(c == '='))).drop 1
    let key := pyStrip (String.mk k)
    let value := pyStripChars ['\''] (pyStripChars ['"'] (pyStrip (String.mk v)))
    setEnv env key value
  else env

/-- Split a character stream into lines at `\n`, `\r\n` or `\r`, as
Python's universal-newline text mode does. -/
def splitLinesAux : List Char → List Char → List String
  | [], acc => [String.mk acc.reverse]
  | '\r' :: '\n' :: r, acc => String.mk acc.reverse :: splitLinesAux r []
  | '\r' :: r, acc => String.mk acc.reverse :: splitLinesAux r []
  | '\n' :: r, acc => String.mk acc.reverse :: splitLinesAux r []
  | c :: r, acc => splitLinesAux r (c :: acc)

/-- Split file contents into lines as Python's universal-newline text
mode does (`\r\n`, `\r` and `\n` all end a line). -/
def pyLines (content : String) : List String :=
  splitLinesAux content.toList []

/-- `EC2Secrets._load_env_file`: fold the parse rule over all lines. -/
def loadEnvContent (env : Env) (content : String) : Env :=
  (pyLines content).foldl parseEnvLine env

/-- A filesystem: `none` means the path does not exist, `some c` a file
with contents `c`. -/
def FS := String → Option String

/-- The filesystem with no files. -/
def emptyFS : FS := fun _ => none

/-- The candidate `.env` paths of `EC2Secrets.load`, in order; `home`
models `os.path.expanduser('~')`. -/
def envCandidates (envFile : Option String) (home : String) :
    List (Option String) :=
  [envFile, some ".env", some "/etc/dbmigration/.env",
   some (home ++ "/.dbmigration/.env"), some "/opt/dbmigration/.env"]

/-- The candidate Firebase JSON config paths of `EC2Secrets.load`. -/
def fbCandidates (configFile : Option String) (home : String) :
    List (Option String) :=
  [configFile, some "firebase-config.json",
   some "/etc/dbmigration/firebase-config.json",
   some (home ++ "/.dbmigration/firebase-config.json"),
   some "/opt/dbmigration/firebase-config.json"]

/-- The `for ... if path and os.path.exists(path): ...; break` loop: the
first candidate that is truthy (not `None`, not `""`) and exists. -/
def firstExisting (fs : FS) : List (Option String) → Option String
  | [] => none
  | c :: rest =>
    match c with
    | some p =>
      if (!(p == "") && (fs p).isSome) then some p else firstExisting fs rest
    | none => firstExisting fs rest

/-- `.env` phase of `EC2Secrets.load`: parse the first existing
candidate file into the environment (or leave it unchanged). -/
def loadEnvPhase (fs : FS) (envFile : Option String) (home : String)
    (env : Env) : Env :=
  match firstExisting fs (envCandidates envFile home) with
  | some p => loadEnvContent env ((fs p).getD "")
  | none => env

/-- `json.dumps` rendered at the structural level (exact float formatting
is immaterial to the claims: the serialized string is only ever decoded
again by `pyJsonLoads` or ignored). -/
def jsonDumps : Nat → Json → String
  | 0, _ => ""
  | _ + 1, .null => "null"
  | _ + 1, .bool b => if b then "true" else "false"
  | _ + 1, .num m e =>
    if e == 0 then toString m else toString m ++ "e" ++ toString e
  | _ + 1, .inf b => if b then "-Infinity" else "Infinity"
  | _ + 1, .nan => "NaN"
  | _ + 1, .str s =>
    "\"" ++ String.join (s.toList.map fun c =>
      if c == '"' then "\\\""
      else if c == '\\' then "\\\\"
      else if c.toNat < 32 then "\\u00" ++
        String.mk [(Nat.digitChar (c.toNat / 16)), (Nat.digitChar (c.toNat % 16))]
      else String.mk [c]) ++ "\""
  | fuel + 1, .arr l =>
    "[" ++ String.intercalate ", " (l.map (jsonDumps fuel)) ++ "]"
  | fuel + 1, .obj l =>
    "\x7b" ++ String.intercalate ", "
      (l.map fun p => "\"" ++ p.1 ++ "\": " ++ jsonDumps fuel p.2) ++ "\x7d"

/-- Firebase-config phase of `EC2Secrets.load`: if the first existing
candidate JSON file parses, store its serialization in
`FIREBASE_CONFIG_JSON`; a parse failure is caught and ignored. -/
def loadFbPhase (fs : FS) (configFile : Option String) (home : String)
    (env : Env) : Env :=
  match firstExisting fs (fbCandidates configFile home) with
  | some p =>
    match pyJsonLoads ((fs p).getD "") with
    | some j => setEnv env "FIREBASE_CONFIG_JSON" (jsonDumps (10 ^ 6) j)
    | none => env
  | none => env

/-- Exceptions `EC2Secrets._build_config` can raise: `ValueError` from
`int(...)` on a bad `APP_PORT`, `TypeError` from item assignment into a
non-dict decoded `FIREBASE_CONFIG_JSON` value. -/
inductive PyErr where
  | valueError : PyErr
  | typeError : PyErr
deriving Repr, DecidableEq

/-- The `firebase_env_mapping` dict of `EC2Secrets._build_config`:
configuration field name → source environment variable. -/
def firebase_env_mapping : List (String × String) :=
  [("type", "FIREBASE_TYPE"),
   ("project_id", "FIREBASE_PROJECT_ID"),
   ("private_key_id", "FIREBASE_PRIVATE_KEY_ID"),
   ("private_key", "FIREBASE_PRIVATE_KEY"),
   ("client_email", "FIREBASE_CLIENT_EMAIL"),
   ("client_id", "FIREBASE_CLIENT_ID"),
   ("auth_uri", "FIREBASE_AUTH_URI"),
   ("token_uri", "FIREBASE_TOKEN_URI"),
   ("auth_provider_x509_cert_url", "FIREBASE_AUTH_PROVIDER_CERT_URL"),
   ("client_x509_cert_url", "FIREBASE_CLIENT_CERT_URL"),
   ("web_api_key", "FIREBASE_WEB_API_KEY")]

/-- The `firebase_config` value after the `FIREBASE_CONFIG_JSON` attempt:
`{}` initially; if the variable is truthy, try `json.loads`, keeping `{}`
on a `JSONDecodeError`. -/
def firebaseInit (env : Env) : Json :=
  if truthyStr (env "FIREBASE_CONFIG_JSON") then
    match pyJsonLoads ((env "FIREBASE_CONFIG_JSON").getD "") with
    | some j => j
    | none => .obj []
  else .obj []

/-- The `for key, env_var in firebase_env_mapping.items()` loop: for each
truthy source variable, `firebase_config[key] = os.getenv(env_var)` —
a `TypeError` when `firebase_config` is not a dict. -/
def fillVars (env : Env) : List (String × String) → Json → Except PyErr Json
  | [], acc => .ok acc
  | kv :: rest, acc =>
    if truthyStr (env kv.2) then
      match acc with
      | .obj fields =>
        fillVars env rest (.obj (dictSet fields kv.1 (.str ((env kv.2).getD ""))))
      | _ => .error .typeError
    else fillVars env rest acc

/-- The full `firebase` construction: keep the decoded JSON when truthy,
otherwise run the individual-variable loop over it. -/
def firebaseFill (env : Env) (init : Json) : Except PyErr Json :=
  if jsonTruthy init then .ok init
  else fillVars env firebase_env_mapping init

/-- The resolved configuration: Python's ordered dict of sections. -/
abbrev Config := List (String × Json)

/-- The `admin_config` dict (fields added in source order, only for
truthy source variables). -/
def adminPairs (env : Env) : List (String × Json) :=
  (if truthyStr (env "ADMIN_EMAIL") then
    [("email", Json.str ((env "ADMIN_EMAIL").getD ""))] else [])
  ++ (if truthyStr (env "ADMIN_PASSWORD") then
    [("password", Json.str ((env "ADMIN_PASSWORD").getD ""))] else [])
  ++ (if truthyStr (env "ADMIN_KEY") then
    [("key", Json.str ((env "ADMIN_KEY").getD ""))] else [])

/-- The `aws_config` dict: defaulted `region`, plus the access-key pair
when `AWS_ACCESS_KEY_ID` is truthy. -/
def awsPairs (env : Env) : List (String × Json) :=
  [("region", Json.str (getenvD env "AWS_DEFAULT_REGION" "us-east-1"))]
  ++ (if truthyStr (env "AWS_ACCESS_KEY_ID") then
    [("access_key_id", Json.str ((env "AWS_ACCESS_KEY_ID").getD "")),
     ("secret_access_key", Json.str (getenvD env "AWS_SECRET_ACCESS_KEY" ""))]
    else [])

/-- The `app` dict for a successfully parsed port. -/
def appPairs (env : Env) (port : Int) : List (String × Json) :=
  [("mode", Json.str (getenvD env "APP_MODE" "production")),
   ("port", Json.num port 0),
   ("host", Json.str (getenvD env "APP_HOST" "0.0.0.0")),
   ("debug", Json.bool (pyLower (getenvD env "APP_DEBUG" "false") == "true"))]

/-- `EC2Secrets._build_config`: assemble the configuration dict from the
environment, in source order; `.error` models an uncaught exception. -/
def buildConfig (env : Env) : Except PyErr Config := do
  let c0 : Config := []
  let c1 :=
    if truthyStr (env "ANTHROPIC_API_KEY") then
      dictSet c0 "ANTHROPIC_API_KEY" (.str ((env "ANTHROPIC_API_KEY").getD ""))
    else c0
  let fb ← firebaseFill env (firebaseInit env)
  let c2 := if jsonTruthy fb then dictSet c1 "firebase" fb else c1
  let c3 :=
    if !(adminPairs env).isEmpty then dictSet c2 "admin" (.obj (adminPairs env))
    else c2
  let c4 := dictSet c3 "aws" (.obj (awsPairs env))
  let port ←
    match pyInt (getenvD env "APP_PORT" "8501") with
    | some p => Except.ok p
    | none => Except.error PyErr.valueError
  pure (dictSet c4 "app" (.obj (appPairs env port)))

/-- The environment after the two file phases of `EC2Secrets.load`. -/
def finalEnv (fs : FS) (envFile configFile : Option String) (home : String)
    (env0 : Env) : Env :=
  loadFbPhase fs configFile home (loadEnvPhase fs envFile home env0)

/-- `EC2Secrets.load` / `resolve()`: run both file phases, then build the
configuration from the resulting environment. -/
def load (fs : FS) (envFile configFile : Option String) (home : String)
    (env0 : Env) : Except PyErr Config :=
  buildConfig (finalEnv fs envFile configFile home env0)

/-- Top-level lookup in the resolved configuration. -/
def lookupKey (cfg : Config) (k : String) : Option Json :=
  (cfg.find? (fun p => p.1 == k)).map (fun p => p.2)

/-- `KeyError` raised by `__getitem__` on a missing key. -/
inductive KeyErr where
  | keyNotFound : KeyErr
deriving Repr, DecidableEq

/-- `EC2Secrets.__getitem__` (`secrets[key]`): the section value, or a
`KeyError` when absent. -/
def getItem (cfg : Config) (k : String) : Except KeyErr Json :=
  match lookupKey cfg k with
  | some v => .ok v
  | none => .error .keyNotFound

/-- `EC2Secrets.get(key, default)`: never fails. -/
def pyGet (cfg : Config) (k : String) (d : Json) : Json :=
  (lookupKey cfg k).getD d

/-- `key in secrets` (`EC2Secrets.__contains__`). -/
def containsKey (cfg : Config) (k : String) : Bool :=
  (lookupKey cfg k).isSome

/-- Field lookup inside a section of the resolved configuration. -/
def sectionField (cfg : Config) (sec field : String) : Option Json :=
  match lookupKey cfg sec with
  | some (.obj fields) =>
    ((fields.find? (fun p => p.1 == field)).map (fun p => p.2))
  | _ => none

/-- The `ANTHROPIC_API_KEY` part of the assembled configuration. -/
def anthropicPart (env : Env) : Config :=
  if truthyStr (env "ANTHROPIC_API_KEY") then
    [("ANTHROPIC_API_KEY", Json.str ((env "ANTHROPIC_API_KEY").getD ""))]
  else []

/-- The configuration assembled by `_build_config` for a given firebase
value and parsed port, written as one explicit list. -/
def mkConfig (env : Env) (fb : Json) (p : Int) : Config :=
  anthropicPart env
  ++ (if jsonTruthy fb then [("firebase", fb)] else [])
  ++ (if (adminPairs env).isEmpty then [] else [("admin", Json.obj (adminPairs env))])
  ++ [("aws", Json.obj (awsPairs env)), ("app", Json.obj (appPairs env p))]

/-- The fields produced by the individual-variable loop over `mapping`. -/
def varsFields (env : Env) (mapping : List (String × String)) :
    List (String × Json) :=
  mapping.filterMap fun kv =>
    if truthyStr (env kv.2) then some (kv.1, Json.str ((env kv.2).getD ""))
    else none

/-- Spec-side reading of the candidate-file rule: the first candidate
that is given, nonempty and exists on the filesystem. -/
def specFirstExisting (fs : FS) (cands : List (Option String)) :
    Option String :=
  (cands.filterMap id).find? fun p => !(p == "") && (fs p).isSome

/-- Spec-side reading of "split on the first `=` only": everything
before the first `=` and everything after it. -/
def specSplitEqList : List Char → List Char × List Char
  | [] => ([], [])
  | c :: r =>
    if c == '=' then ([], r)
    else
      let p := specSplitEqList r
      (c :: p.1, p.2)

/-- The claim's quote rule taken literally: remove exactly one layer of
matching surrounding quote characters (`"` or `'`), nothing otherwise. -/
def specStripOneQuoteLayer (s : String) : String :=
  match s.toList with
  | c :: d :: rest =>
    if (c == '"' || c == '\'') && ((d :: rest).getLast? == some c) then
      String.mk ((d :: rest).dropLast)
    else s
  | _ => s

/-- The corrected parse rule for one `.env` line, written from the spec
wording: trim; skip empty lines and lines starting with `#`; split on
the first `=`; trim key and value; strip every leading and trailing `"`
character from the value, then every leading and trailing `'` character;
assign, overwriting. -/
def specParseEnvLine (env : Env) (rawLine : String) : Env :=
  let line := pyStrip rawLine
  if line == "" then env
  else if firstCharIs '#' line then env
  else if line.toList.contains '=' then
    let p := specSplitEqList line.toList
    setEnv env (pyStrip (String.mk p.1))
      (String.mk (stripEnds (fun c => c == '\'')
        (stripEnds (fun c => c == '"') (pyStrip (String.mk p.2)).toList)))
  else env

/-- The optional source variables read only through truthiness tests:
empty string and unset behave identically for each of them. -/
def optionalVars : List String :=
  ["ANTHROPIC_API_KEY", "FIREBASE_CONFIG_JSON", "FIREBASE_TYPE",
   "FIREBASE_PROJECT_ID", "FIREBASE_PRIVATE_KEY_ID", "FIREBASE_PRIVATE_KEY",
   "FIREBASE_CLIENT_EMAIL", "FIREBASE_CLIENT_ID", "FIREBASE_AUTH_URI",
   "FIREBASE_TOKEN_URI", "FIREBASE_AUTH_PROVIDER_CERT_URL",
   "FIREBASE_CLIENT_CERT_URL", "FIREBASE_WEB_API_KEY",
   "ADMIN_EMAIL", "ADMIN_PASSWORD", "ADMIN_KEY", "AWS_ACCESS_KEY_ID"]

/-- `buildConfig` in terms of its two fallible steps and `mkConfig`. -/
theorem buildConfig_eq (env : Env) :
    buildConfig env =
      match firebaseFill env (firebaseInit env) with
      | .error e => .error e
      | .ok fb =>
        match pyInt (getenvD env "APP_PORT" "8501") with
        | none => .error .valueError
        | some p => .ok (mkConfig env fb p) := by
  unfold buildConfig
  cases h1 : firebaseFill env (firebaseInit env) with
  | error e => rfl
  | ok fb =>
    cases h2 : pyInt (getenvD env "APP_PORT" "8501") with
    | none =>
      simp only [bind, Except.bind, h2]
    | some p =>
      simp only [bind, Except.bind, h2, pure, Except.pure]
      unfold mkConfig anthropicPart
      by_cases hA : truthyStr (env "ANTHROPIC_API_KEY") = true <;>
        by_cases hF : jsonTruthy fb = true <;>
        by_cases hAd : (adminPairs env).isEmpty = true <;>
        simp [hA, hF, hAd, dictSet]

/-- Success inversion for `buildConfig`. -/
theorem buildConfig_ok_inv (env : Env) (cfg : Config)
    (h : buildConfig env = .ok cfg) :
    ∃ fb p, firebaseFill env (firebaseInit env) = .ok fb ∧
      pyInt (getenvD env "APP_PORT" "8501") = some p ∧
      cfg = mkConfig env fb p := by
  rw [buildConfig_eq] at h
  cases h1 : firebaseFill env (firebaseInit env) with
  | error e => rw [h1] at h; exact absurd h (by simp)
  | ok fb =>
    rw [h1] at h
    cases h2 : pyInt (getenvD env "APP_PORT" "8501") with
    | none => rw [h2] at h; exact absurd h (by simp)
    | some p =>
      rw [h2] at h
      exact ⟨fb, p, rfl, rfl, (Except.ok.inj h).symm⟩

/-- Running the loop on a dict whose existing fields are disjoint from
the (pairwise distinct) mapping keys appends exactly the fields of the
truthy variables, and never raises. -/
theorem fillVars_obj (env : Env) (mapping : List (String × String))
    (fields : List (String × Json))
    (hfresh : ∀ kv ∈ mapping, fields.any (fun p => p.1 == kv.1) = false)
    (hnodup : mapping.Pairwise (fun a b => a.1 ≠ b.1)) :
    fillVars env mapping (.obj fields) =
      .ok (.obj (fields ++ varsFields env mapping)) := by
  induction mapping generalizing fields with
  | nil => simp [fillVars, varsFields]
  | cons kv rest ih =>
    have hkv : fields.any (fun p => p.1 == kv.1) = false :=
      hfresh kv (List.mem_cons_self kv rest)
    have hset : dictSet fields kv.1 (Json.str ((env kv.2).getD "")) =
        fields ++ [(kv.1, Json.str ((env kv.2).getD ""))] := by
      unfold dictSet
      rw [hkv]
      simp
    by_cases ht : truthyStr (env kv.2) = true
    · have hfresh' : ∀ kv' ∈ rest,
          (fields ++ [(kv.1, Json.str ((env kv.2).getD ""))]).any
            (fun p => p.1 == kv'.1) = false := by
        intro kv' hmem
        rw [List.any_append]
        have h1 : fields.any (fun p => p.1 == kv'.1) = false :=
          hfresh kv' (List.mem_cons_of_mem kv hmem)
        have h2 : kv.1 ≠ kv'.1 := (List.pairwise_cons.mp hnodup).1 kv' hmem
        simp [h1, h2]
      have := ih (fields ++ [(kv.1, Json.str ((env kv.2).getD ""))]) hfresh'
        (List.pairwise_cons.mp hnodup).2
      simp only [fillVars, ht, if_true, hset, this, varsFields,
        List.filterMap_cons, List.append_assoc]
      simp [varsFields]
    · have := ih fields (fun kv' hmem => hfresh kv' (List.mem_cons_of_mem kv hmem))
        (List.pairwise_cons.mp hnodup).2
      simp only [fillVars, ht, if_false, varsFields, List.filterMap_cons]
      simp only [Bool.not_eq_true] at ht
      simp [ht, this, varsFields]

/-- `firebaseFill` on an initially empty dict. -/
theorem firebaseFill_empty (env : Env) :
    firebaseFill env (.obj []) = .ok (.obj (varsFields env firebase_env_mapping)) := by
  unfold firebaseFill
  simp only [jsonTruthy, List.isEmpty_nil, Bool.not_true, Bool.false_eq_true,
    if_false]
  exact fillVars_obj env firebase_env_mapping []
    (fun kv _ => rfl) (by decide)

/-- `firebaseFill` keeps a truthy decoded value unchanged. -/
theorem firebaseFill_truthy (env : Env) (init : Json)
    (h : jsonTruthy init = true) : firebaseFill env init = .ok init := by
  unfold firebaseFill
  rw [h]
  rfl

theorem lookup_mkConfig_anthropic (env : Env) (fb : Json) (p : Int) :
    lookupKey (mkConfig env fb p) "ANTHROPIC_API_KEY" =
      if truthyStr (env "ANTHROPIC_API_KEY") then
        some (Json.str ((env "ANTHROPIC_API_KEY").getD ""))
      else none := by
  unfold mkConfig anthropicPart lookupKey
  split_ifs <;> rfl

theorem lookup_mkConfig_firebase (env : Env) (fb : Json) (p : Int) :
    lookupKey (mkConfig env fb p) "firebase" =
      if jsonTruthy fb then some fb else none := by
  unfold mkConfig anthropicPart lookupKey
  split_ifs <;> rfl

theorem lookup_mkConfig_admin (env : Env) (fb : Json) (p : Int) :
    lookupKey (mkConfig env fb p) "admin" =
      if (adminPairs env).isEmpty then none
      else some (Json.obj (adminPairs env)) := by
  unfold mkConfig anthropicPart lookupKey
  split_ifs <;> rfl

theorem lookup_mkConfig_aws (env : Env) (fb : Json) (p : Int) :
    lookupKey (mkConfig env fb p) "aws" = some (Json.obj (awsPairs env)) := by
  unfold mkConfig anthropicPart lookupKey
  split_ifs <;> rfl

theorem lookup_mkConfig_app (env : Env) (fb : Json) (p : Int) :
    lookupKey (mkConfig env fb p) "app" = some (Json.obj (appPairs env p)) := by
  unfold mkConfig anthropicPart lookupKey
  split_ifs <;> rfl

theorem mkConfig_keys (env : Env) (fb : Json) (p : Int) :
    ∀ q ∈ mkConfig env fb p,
      q.1 ∈ ["ANTHROPIC_API_KEY", "firebase", "admin", "aws", "app"] := by
  intro q hq
  unfold mkConfig anthropicPart at hq
  split_ifs at hq <;> simp at hq <;>
    rcases hq with h | h | h | h | h <;> simp_all

/-- Claim C1, corrected: resolution completes with the app port equal to
the integer parsed from `APP_PORT` (default `"8501"`) provided that
string parses as an integer and the firebase construction does not
raise; a non-integer `APP_PORT` aborts resolution with a `ValueError`
(see the counterexample). -/
theorem spec_c1 (fs : FS) (envFile configFile : Option String) (home : String)
    (env0 env : Env) (p : Int)
    (henv : finalEnv fs envFile configFile home env0 = env)
    (hport : pyInt (getenvD env "APP_PORT" "8501") = some p)
    (hfb : ∃ fb, firebaseFill env (firebaseInit env) = .ok fb) :
    ∃ cfg, load fs envFile configFile home env0 = .ok cfg ∧
      sectionField cfg "app" "port" = some (Json.num p 0) := by
  subst henv
  obtain ⟨fb, hfb⟩ := hfb
  refine ⟨mkConfig (finalEnv fs envFile configFile home env0) fb p, ?_, ?_⟩
  · show buildConfig _ = _
    rw [buildConfig_eq, hfb, hport]
  · unfold sectionField
    rw [lookup_mkConfig_app]
    rfl

/-- Witness for C1 at the all-default state: no files, empty
environment; the port is the default 8501. -/
theorem spec_c1_witness :
    ∃ cfg, load emptyFS none none "/home/user" emptyEnv = .ok cfg ∧
      sectionField cfg "app" "port" = some (Json.num 8501 0) :=
  spec_c1 emptyFS none none "/home/user" emptyEnv emptyEnv 8501 (by rfl)
    (by rfl) ⟨Json.obj [], by rfl⟩

/-- Counterexample to C1 as stated: a non-integer `APP_PORT` raises
`ValueError`, and a falsy non-dict `FIREBASE_CONFIG_JSON` document
together with a set individual variable raises `TypeError`; both abort
resolution. -/
theorem spec_c1_cex :
    load emptyFS none none "/home/user" (envOf [("APP_PORT", "abc")]) =
      .error .valueError ∧
    load emptyFS none none "/home/user"
        (envOf [("FIREBASE_CONFIG_JSON", "0"), ("FIREBASE_PROJECT_ID", "p")]) =
      .error .typeError :=
  ⟨rfl, rfl⟩

/-- Claim C7, confirmed: on an absent top-level key the strict accessor
fails with the KeyNotFound condition while `get` returns the supplied
default; on a present key both return the section value. -/
theorem spec_c7 (cfg : Config) (k : String) (d : Json) :
    (lookupKey cfg k = none →
      getItem cfg k = .error .keyNotFound ∧ pyGet cfg k d = d) ∧
    (∀ v, lookupKey cfg k = some v →
      getItem cfg k = .ok v ∧ pyGet cfg k d = v) := by
  constructor
  · intro h
    unfold getItem pyGet
    rw [h]
    exact ⟨rfl, rfl⟩
  · intro v h
    unfold getItem pyGet
    rw [h]
    exact ⟨rfl, rfl⟩

/-- Witness for C7 on a concrete configuration: a missing key fails
strictly but defaults with `get`; a present key is returned by both. -/
theorem spec_c7_witness :
    getItem [("aws", Json.obj [("region", Json.str "us-east-1")])] "firebase" =
      .error .keyNotFound ∧
    pyGet [("aws", Json.obj [("region", Json.str "us-east-1")])] "firebase"
      (Json.str "fallback") = Json.str "fallback" ∧
    getItem [("aws", Json.obj [("region", Json.str "us-east-1")])] "aws" =
      .ok (Json.obj [("region", Json.str "us-east-1")]) :=
  ⟨((spec_c7 _ "firebase" (Json.str "fallback")).1 (by rfl)).1,
   ((spec_c7 _ "firebase" (Json.str "fallback")).1 (by rfl)).2,
   ((spec_c7 _ "aws" (Json.str "fallback")).2 _ (by rfl)).1⟩

/-- Claim C10, confirmed: every top-level key of a successfully resolved
configuration is one of the five known section names. -/
theorem spec_c10 (fs : FS) (envFile configFile : Option String)
    (home : String) (env0 : Env) (cfg : Config)
    (h : load fs envFile configFile home env0 = .ok cfg) :
    ∀ q ∈ cfg, q.1 ∈ ["ANTHROPIC_API_KEY", "firebase", "admin", "aws", "app"] := by
  obtain ⟨fb, p, _, _, rfl⟩ := buildConfig_ok_inv _ cfg h
  exact mkConfig_keys _ fb p

/-- Witness for C10 on the all-default resolution: the `aws` entry of
the resolved configuration carries one of the five known keys. -/
theorem spec_c10_witness :
    ("aws", Json.obj [("region", Json.str "us-east-1")]).1 ∈
      (["ANTHROPIC_API_KEY", "firebase", "admin", "aws", "app"] : List String) :=
  spec_c10 emptyFS none none "/home/user" emptyEnv
    [("aws", Json.obj [("region", Json.str "us-east-1")]),
     ("app", Json.obj [("mode", Json.str "production"),
       ("port", Json.num 8501 0), ("host", Json.str "0.0.0.0"),
       ("debug", Json.bool false)])]
    (by rfl) ("aws", Json.obj [("region", Json.str "us-east-1")])
    (List.mem_cons_self _ _)

/-- Claim C3, corrected: when `FIREBASE_CONFIG_JSON` is set and decodes
to a truthy JSON value, the `firebase` section equals the decoded
document and the individual variables contribute nothing; a document
that decodes to a falsy value (such as `{}`) does not take precedence
(see the counterexample). -/
theorem spec_c3 (env : Env) (cfg : Config) (j : Json)
    (h1 : truthyStr (env "FIREBASE_CONFIG_JSON") = true)
    (h2 : pyJsonLoads ((env "FIREBASE_CONFIG_JSON").getD "") = some j)
    (h3 : jsonTruthy j = true)
    (h4 : buildConfig env = .ok cfg) :
    lookupKey cfg "firebase" = some j := by
  have hinit : firebaseInit env = j := by
    unfold firebaseInit
    rw [h1, h2]
    rfl
  obtain ⟨fb, p, hf, _, rfl⟩ := buildConfig_ok_inv env cfg h4
  rw [hinit, firebaseFill_truthy env j h3] at hf
  have hfb : fb = j := (Except.ok.inj hf).symm
  subst hfb
  rw [lookup_mkConfig_firebase, if_pos h3]

/-- Witness for C3: a truthy decoded document wins over a set
`FIREBASE_PROJECT_ID`. -/
theorem spec_c3_witness :
    lookupKey [("firebase", Json.obj [("a", Json.num 1 0)]),
      ("aws", Json.obj [("region", Json.str "us-east-1")]),
      ("app", Json.obj [("mode", Json.str "production"),
        ("port", Json.num 8501 0), ("host", Json.str "0.0.0.0"),
        ("debug", Json.bool false)])] "firebase" =
      some (Json.obj [("a", Json.num 1 0)]) :=
  spec_c3
    (envOf [("FIREBASE_CONFIG_JSON", "\x7b\"a\": 1\x7d"), ("FIREBASE_PROJECT_ID", "p")])
    _ (Json.obj [("a", Json.num 1 0)]) (by rfl) (by rfl) (by rfl) (by rfl)

/-- Counterexample to C3 as stated: `"{}"` is a valid JSON document, yet
with `FIREBASE_PROJECT_ID` also set the `firebase` section is built from
the individual variable, not from the decoded (empty) document. -/
theorem spec_c3_cex :
    pyJsonLoads "{}" = some (Json.obj []) ∧
    buildConfig (envOf [("FIREBASE_CONFIG_JSON", "{}"), ("FIREBASE_PROJECT_ID", "p")]) =
      .ok [("firebase", Json.obj [("project_id", Json.str "p")]),
        ("aws", Json.obj [("region", Json.str "us-east-1")]),
        ("app", Json.obj [("mode", Json.str "production"),
          ("port", Json.num 8501 0), ("host", Json.str "0.0.0.0"),
          ("debug", Json.bool false)])] ∧
    Json.obj [("project_id", Json.str "p")] ≠ Json.obj [] :=
  ⟨by rfl, by rfl, fun h => by simp at h⟩

/-- Claim C4, corrected: when `FIREBASE_CONFIG_JSON` is absent or not
valid JSON, the `firebase` section is built field-by-field from the
eleven (not ten) individually named environment variables, keeping only
the fields whose source variable is set, and is omitted entirely when no
field results. -/
theorem spec_c4 (env : Env) (cfg : Config)
    (hjson : truthyStr (env "FIREBASE_CONFIG_JSON") = false ∨
      pyJsonLoads ((env "FIREBASE_CONFIG_JSON").getD "") = none)
    (h : buildConfig env = .ok cfg) :
    firebase_env_mapping.length = 11 ∧
    (varsFields env firebase_env_mapping = [] →
      lookupKey cfg "firebase" = none) ∧
    (varsFields env firebase_env_mapping ≠ [] →
      lookupKey cfg "firebase" =
        some (Json.obj (varsFields env firebase_env_mapping))) := by
  have hinit : firebaseInit env = .obj [] := by
    unfold firebaseInit
    rcases hjson with hj | hj
    · rw [hj]
      rfl
    · rw [hj]
      split <;> rfl
  obtain ⟨fb, p, hf, _, rfl⟩ := buildConfig_ok_inv env cfg h
  rw [hinit, firebaseFill_empty env] at hf
  have hfb : fb = Json.obj (varsFields env firebase_env_mapping) :=
    (Except.ok.inj hf).symm
  subst hfb
  refine ⟨rfl, ?_, ?_⟩
  · intro hempty
    rw [lookup_mkConfig_firebase, if_neg]
    rw [hempty]
    simp [jsonTruthy]
  · intro hne
    rw [lookup_mkConfig_firebase, if_pos]
    simp only [jsonTruthy, Bool.not_eq_true']
    rw [List.isEmpty_eq_false_iff_exists_mem]
    exact List.exists_mem_of_ne_nil _ hne

/-- Witness for C4: with only `FIREBASE_PROJECT_ID` set the section
holds exactly the `project_id` field. -/
theorem spec_c4_witness :
    lookupKey [("firebase", Json.obj [("project_id", Json.str "p")]),
      ("aws", Json.obj [("region", Json.str "us-east-1")]),
      ("app", Json.obj [("mode", Json.str "production"),
        ("port", Json.num 8501 0), ("host", Json.str "0.0.0.0"),
        ("debug", Json.bool false)])] "firebase" =
      some (Json.obj [("project_id", Json.str "p")]) :=
  (spec_c4 (envOf [("FIREBASE_PROJECT_ID", "p")]) _ (Or.inl (by rfl))
    (by rfl)).2.2 (fun h => List.noConfusion h)

/-- Counterexample to C4 as stated: the individual-variable mapping has
eleven entries, not ten, and the eleventh variable
(`FIREBASE_WEB_API_KEY`) does contribute a field. -/
theorem spec_c4_cex :
    firebase_env_mapping.length = 11 ∧
    ¬ firebase_env_mapping.length = 10 ∧
    buildConfig (envOf [("FIREBASE_WEB_API_KEY", "k")]) =
      .ok [("firebase", Json.obj [("web_api_key", Json.str "k")]),
        ("aws", Json.obj [("region", Json.str "us-east-1")]),
        ("app", Json.obj [("mode", Json.str "production"),
          ("port", Json.num 8501 0), ("host", Json.str "0.0.0.0"),
          ("debug", Json.bool false)])] :=
  ⟨by rfl, by decide, by rfl⟩

/-- Claim C5, confirmed: after a successful resolution the `aws` and
`app` sections are always present (with `region` defaulting to
`"us-east-1"` when `AWS_DEFAULT_REGION` is unset), while the
`ANTHROPIC_API_KEY`, `firebase` and `admin` sections are present only
when at least one relevant source variable is set. -/
theorem spec_c5 (fs : FS) (envFile configFile : Option String)
    (home : String) (env0 env : Env) (cfg : Config)
    (henv : finalEnv fs envFile configFile home env0 = env)
    (h : load fs envFile configFile home env0 = .ok cfg) :
    (∃ a, lookupKey cfg "aws" = some a) ∧
    (∃ a, lookupKey cfg "app" = some a) ∧
    (env "AWS_DEFAULT_REGION" = none →
      sectionField cfg "aws" "region" = some (Json.str "us-east-1")) ∧
    (lookupKey cfg "ANTHROPIC_API_KEY" ≠ none →
      truthyStr (env "ANTHROPIC_API_KEY") = true) ∧
    (lookupKey cfg "firebase" ≠ none →
      truthyStr (env "FIREBASE_CONFIG_JSON") = true ∨
      ∃ kv ∈ firebase_env_mapping, truthyStr (env kv.2) = true) ∧
    (lookupKey cfg "admin" ≠ none →
      truthyStr (env "ADMIN_EMAIL") = true ∨
      truthyStr (env "ADMIN_PASSWORD") = true ∨
      truthyStr (env "ADMIN_KEY") = true) := by
  subst henv
  set env := finalEnv fs envFile configFile home env0 with henv
  obtain ⟨fb, p, hf, _, rfl⟩ := buildConfig_ok_inv env cfg h
  refine ⟨⟨_, lookup_mkConfig_aws env fb p⟩, ⟨_, lookup_mkConfig_app env fb p⟩,
    ?_, ?_, ?_, ?_⟩
  · intro hr
    have : sectionField (mkConfig env fb p) "aws" "region" =
        some (Json.str (getenvD env "AWS_DEFAULT_REGION" "us-east-1")) := by
      unfold sectionField
      rw [lookup_mkConfig_aws]
      rfl
    rw [this]
    unfold getenvD
    rw [hr]
    rfl
  · intro hsome
    rw [lookup_mkConfig_anthropic] at hsome
    by_cases ht : truthyStr (env "ANTHROPIC_API_KEY") = true
    · exact ht
    · rw [if_neg ht] at hsome
      exact absurd rfl hsome
  · intro hsome
    rw [lookup_mkConfig_firebase] at hsome
    by_cases htr : jsonTruthy fb = true
    · by_cases hcj : truthyStr (env "FIREBASE_CONFIG_JSON") = true
      · exact Or.inl hcj
      · right
        have hinit : firebaseInit env = .obj [] := by
          unfold firebaseInit
          rw [Bool.not_eq_true] at hcj
          rw [hcj]
          rfl
        rw [hinit, firebaseFill_empty env] at hf
        have hfb : fb = Json.obj (varsFields env firebase_env_mapping) :=
          (Except.ok.inj hf).symm
        subst hfb
        simp only [jsonTruthy, Bool.not_eq_true'] at htr
        rw [List.isEmpty_eq_false_iff_exists_mem] at htr
        obtain ⟨x, hx⟩ := htr
        unfold varsFields at hx
        rw [List.mem_filterMap] at hx
        obtain ⟨kv, hkv, hfx⟩ := hx
        refine ⟨kv, hkv, ?_⟩
        by_cases ht : truthyStr (env kv.2) = true
        · exact ht
        · rw [if_neg ht] at hfx
          exact absurd hfx (by simp)
    · rw [if_neg htr] at hsome
      exact absurd rfl hsome
  · intro hsome
    rw [lookup_mkConfig_admin] at hsome
    by_cases hemp : (adminPairs env).isEmpty = true
    · rw [if_pos hemp] at hsome
      exact absurd rfl hsome
    · by_cases h1 : truthyStr (env "ADMIN_EMAIL") = true
      · exact Or.inl h1
      · by_cases h2 : truthyStr (env "ADMIN_PASSWORD") = true
        · exact Or.inr (Or.inl h2)
        · by_cases h3 : truthyStr (env "ADMIN_KEY") = true
          · exact Or.inr (Or.inr h3)
          · exfalso
            apply hemp
            unfold adminPairs
            rw [if_neg h1, if_neg h2, if_neg h3]
            rfl

/-- Witness for C5 at the all-default state: the region defaults to
`"us-east-1"`. -/
theorem spec_c5_witness :
    sectionField [("aws", Json.obj [("region", Json.str "us-east-1")]),
      ("app", Json.obj [("mode", Json.str "production"),
        ("port", Json.num 8501 0), ("host", Json.str "0.0.0.0"),
        ("debug", Json.bool false)])] "aws" "region" =
      some (Json.str "us-east-1") :=
  (spec_c5 emptyFS none none "/home/user" emptyEnv emptyEnv _ (by rfl)
    (by rfl)).2.2.1 rfl

/-- Claim C8, confirmed: the resolved `debug` flag is `true` exactly
when `APP_DEBUG` is set to a string whose lowercasing is `"true"`; any
other value, and absence, give `false`. -/
theorem spec_c8 (env : Env) (cfg : Config) (h : buildConfig env = .ok cfg) :
    sectionField cfg "app" "debug" = some (Json.bool true) ↔
      ∃ s, env "APP_DEBUG" = some s ∧ pyLower s = "true" := by
  obtain ⟨fb, p, _, _, rfl⟩ := buildConfig_ok_inv env cfg h
  have hsec : sectionField (mkConfig env fb p) "app" "debug" =
      some (Json.bool (pyLower (getenvD env "APP_DEBUG" "false") == "true")) := by
    unfold sectionField
    rw [lookup_mkConfig_app]
    rfl
  rw [hsec]
  simp only [Option.some.injEq, Json.bool.injEq]
  cases hd : env "APP_DEBUG" with
  | none =>
    unfold getenvD
    rw [hd]
    constructor
    · intro hfalse
      exact absurd hfalse (by decide)
    · rintro ⟨s, hs, _⟩
      exact absurd hs (by simp)
  | some s =>
    unfold getenvD
    rw [hd]
    simp only [Option.getD_some, beq_iff_eq]
    constructor
    · intro hl
      exact ⟨s, rfl, hl⟩
    · rintro ⟨t, ht, hl⟩
      rw [(Option.some.inj ht)]
      exact hl

/-- Witness for C8: `APP_DEBUG="TRUE"` yields a boolean-true debug flag
(case-insensitive match). -/
theorem spec_c8_witness :
    sectionField [("aws", Json.obj [("region", Json.str "us-east-1")]),
      ("app", Json.obj [("mode", Json.str "production"),
        ("port", Json.num 8501 0), ("host", Json.str "0.0.0.0"),
        ("debug", Json.bool true)])] "app" "debug" =
      some (Json.bool true) :=
  (spec_c8 (envOf [("APP_DEBUG", "TRUE")]) _ (by rfl)).mpr
    ⟨"TRUE", by rfl, by rfl⟩

/-- The candidate-selection loop equals a `find?` over the truthy
candidates. -/
theorem firstExisting_eq_find (fs : FS) (l : List (Option String)) :
    firstExisting fs l =
      (l.filterMap id).find? (fun p => !(p == "") && (fs p).isSome) := by
  induction l with
  | nil => rfl
  | cons c rest ih =>
    cases c with
    | none =>
      simp only [firstExisting, List.filterMap_cons]
      exact ih
    | some p =>
      by_cases hp : (!(p == "") && (fs p).isSome) = true
      · simp [firstExisting, hp, List.filterMap_cons, List.find?_cons_of_pos]
      · simp only [Bool.not_eq_true] at hp
        simp [firstExisting, hp, List.filterMap_cons, List.find?_cons_of_neg, ih]

/-- Claim C6, confirmed: the `.env` candidates are tried in the fixed
order (explicit path, `./.env`, three absolute paths), only the first
existing candidate is parsed, and nothing is merged from later
candidates. -/
theorem spec_c6 (fs : FS) (envFile : Option String) (home : String)
    (env : Env) :
    envCandidates envFile home =
      [envFile, some ".env", some "/etc/dbmigration/.env",
       some (home ++ "/.dbmigration/.env"), some "/opt/dbmigration/.env"] ∧
    loadEnvPhase fs envFile home env =
      (match specFirstExisting fs (envCandidates envFile home) with
       | some p => loadEnvContent env ((fs p).getD "")
       | none => env) := by
  refine ⟨rfl, ?_⟩
  unfold loadEnvPhase specFirstExisting
  rw [firstExisting_eq_find]

/-- A singleton `contains` is equality with its element. -/
theorem contains_singleton (q x : Char) : [q].contains x = (x == q) := by
  cases h : x == q <;> simp_all [List.contains_cons]

/-- `strip(chars)` with a single character, through the spec-side
predicate. -/
theorem pyStripChars_singleton (q : Char) (s : String) :
    pyStripChars [q] s = String.mk (stripEnds (fun c => c == q) s.toList) := by
  unfold pyStripChars
  have h : (fun c => List.contains [q] c) = (fun c => c == q) := by
    funext c
    exact contains_singleton q c
  rw [h]

/-- The recursive first-`=` split equals the `takeWhile`/`dropWhile`
formulation used by the source-side parser. -/
theorem specSplitEqList_eq (l : List Char) :
    specSplitEqList l =
      (l.takeWhile (fun c => !(c == '=')),
       (l.dropWhile (fun c => !(c == '='))).drop 1) := by
  induction l with
  | nil => rfl
  | cons c r ih =>
    by_cases h : (c == '=') = true
    · simp [specSplitEqList, h, List.takeWhile_cons, List.dropWhile_cons]
    · simp [specSplitEqList, h, List.takeWhile_cons, List.dropWhile_cons, ih]

/-- Claim C2, corrected: each `.env` line is trimmed, comment and empty
lines are skipped, the line is split on the first `=` only, key and
value are trimmed, and every leading and trailing `"` character, then
every leading and trailing `'` character, is stripped from the value
(not exactly one matching layer — see the counterexample); the pair is
assigned into the environment, overwriting any existing value. -/
theorem spec_c2 (env : Env) (rawLine : String) :
    parseEnvLine env rawLine = specParseEnvLine env rawLine := by
  unfold parseEnvLine specParseEnvLine
  by_cases h1 : (pyStrip rawLine == "") = true
  · simp [h1]
  · by_cases h2 : firstCharIs '#' (pyStrip rawLine) = true
    · simp [h1, h2]
    · rw [Bool.not_eq_true] at h1 h2
      simp only [h1, h2, Bool.or_self, Bool.false_eq_true, if_false]
      by_cases h3 : (pyStrip rawLine).toList.contains '=' = true
      · rw [if_pos h3, if_pos h3]
        conv_rhs => rw [specSplitEqList_eq]
        rw [pyStripChars_singleton, pyStripChars_singleton]
        rfl
      · rw [if_neg h3, if_neg h3]

/-- Counterexample to C2 as stated: for the line `K="'v'"` the code
strips both the double quotes and the inner single quotes (value `v`),
while stripping exactly one layer of matching surrounding quotes would
leave `'v'`. -/
theorem spec_c2_cex :
    (parseEnvLine emptyEnv "K=\"'v'\"") "K" = some "v" ∧
    specStripOneQuoteLayer "\"'v'\"" = "'v'" ∧
    ("v" : String) ≠ "'v'" :=
  ⟨by rfl, by rfl, by decide⟩

/-- The individual-variable loop depends on the environment only through
the truthiness and defaulted value of each mapped variable. -/
theorem fillVars_congr (env1 env2 : Env) (mapping : List (String × String))
    (acc : Json)
    (h : ∀ kv ∈ mapping, truthyStr (env1 kv.2) = truthyStr (env2 kv.2) ∧
      (env1 kv.2).getD "" = (env2 kv.2).getD "") :
    fillVars env1 mapping acc = fillVars env2 mapping acc := by
  induction mapping generalizing acc with
  | nil => rfl
  | cons kv rest ih =>
    obtain ⟨ht, hv⟩ := h kv (List.mem_cons_self kv rest)
    have hrest := fun kv' hm => h kv' (List.mem_cons_of_mem kv hm)
    by_cases htr : truthyStr (env1 kv.2) = true
    · have htr2 : truthyStr (env2 kv.2) = true := ht ▸ htr
      cases acc with
      | obj fields =>
        simp only [fillVars, htr, htr2, if_true, hv]
        exact ih _ hrest
      | null => simp [fillVars, htr, htr2]
      | bool b => simp [fillVars, htr, htr2]
      | num m e => simp [fillVars, htr, htr2]
      | inf b => simp [fillVars, htr, htr2]
      | nan => simp [fillVars, htr, htr2]
      | str s => simp [fillVars, htr, htr2]
      | arr l => simp [fillVars, htr, htr2]
    · have htr2 : ¬ truthyStr (env2 kv.2) = true := by
        rw [← ht]
        exact htr
      simp only [fillVars, if_neg htr, if_neg htr2]
      exact ih acc hrest

/-- Claim C9, confirmed: setting any optional source variable to the
empty string behaves exactly like leaving it unset, and when every
optional source variable is empty or unset the `ANTHROPIC_API_KEY`,
`firebase` and `admin` sections are all omitted. -/
theorem spec_c9 :
    (∀ env v, v ∈ optionalVars →
      buildConfig (setEnv env v "") = buildConfig (unsetEnv env v)) ∧
    (∀ env cfg, (∀ v ∈ optionalVars, env v = some "" ∨ env v = none) →
      buildConfig env = .ok cfg →
      lookupKey cfg "ANTHROPIC_API_KEY" = none ∧
      lookupKey cfg "firebase" = none ∧
      lookupKey cfg "admin" = none) := by
  constructor
  · intro env v hv
    have hA : ∀ k, truthyStr (setEnv env v "" k) = truthyStr (unsetEnv env v k) := by
      intro k
      unfold setEnv unsetEnv
      by_cases h : (k == v) = true
      · rw [if_pos h, if_pos h]
        rfl
      · rw [if_neg h, if_neg h]
    have hB : ∀ k, (setEnv env v "" k).getD "" = (unsetEnv env v k).getD "" := by
      intro k
      unfold setEnv unsetEnv
      by_cases h : (k == v) = true
      · rw [if_pos h, if_pos h]
        rfl
      · rw [if_neg h, if_neg h]
    have hC : ∀ k, k ∉ optionalVars →
        setEnv env v "" k = unsetEnv env v k := by
      intro k hk
      have hkv : ¬ (k == v) = true := by
        rw [beq_iff_eq]
        intro heq
        exact hk (heq ▸ hv)
      unfold setEnv unsetEnv
      rw [if_neg hkv, if_neg hkv]
    have hinit : firebaseInit (setEnv env v "") = firebaseInit (unsetEnv env v) := by
      unfold firebaseInit
      rw [hA "FIREBASE_CONFIG_JSON", hB "FIREBASE_CONFIG_JSON"]
    have hfill : ∀ init, firebaseFill (setEnv env v "") init =
        firebaseFill (unsetEnv env v) init := by
      intro init
      unfold firebaseFill
      by_cases hi : jsonTruthy init = true
      · rw [if_pos hi, if_pos hi]
      · rw [if_neg hi, if_neg hi]
        exact fillVars_congr _ _ _ _ (fun kv _ => ⟨hA kv.2, hB kv.2⟩)
    have hadmin : adminPairs (setEnv env v "") = adminPairs (unsetEnv env v) := by
      unfold adminPairs
      rw [hA "ADMIN_EMAIL", hB "ADMIN_EMAIL", hA "ADMIN_PASSWORD",
        hB "ADMIN_PASSWORD", hA "ADMIN_KEY", hB "ADMIN_KEY"]
    have haws : awsPairs (setEnv env v "") = awsPairs (unsetEnv env v) := by
      unfold awsPairs getenvD
      rw [hC "AWS_DEFAULT_REGION" (by decide), hA "AWS_ACCESS_KEY_ID",
        hB "AWS_ACCESS_KEY_ID", hC "AWS_SECRET_ACCESS_KEY" (by decide)]
    have happ : ∀ p, appPairs (setEnv env v "") p = appPairs (unsetEnv env v) p := by
      intro p
      unfold appPairs getenvD
      rw [hC "APP_MODE" (by decide), hC "APP_HOST" (by decide),
        hC "APP_DEBUG" (by decide)]
    have hport : getenvD (setEnv env v "") "APP_PORT" "8501" =
        getenvD (unsetEnv env v) "APP_PORT" "8501" := by
      unfold getenvD
      rw [hC "APP_PORT" (by decide)]
    have hmk : ∀ fb p, mkConfig (setEnv env v "") fb p =
        mkConfig (unsetEnv env v) fb p := by
      intro fb p
      unfold mkConfig anthropicPart
      rw [hA "ANTHROPIC_API_KEY", hB "ANTHROPIC_API_KEY", hadmin, haws, happ]
    rw [buildConfig_eq, buildConfig_eq, hinit, hfill, hport]
    cases firebaseFill (unsetEnv env v) (firebaseInit (unsetEnv env v)) with
    | error e => rfl
    | ok fb =>
      cases pyInt (getenvD (unsetEnv env v) "APP_PORT" "8501") with
      | none => rfl
      | some p => simp [hmk]
  · intro env cfg hes h
    have hfalse : ∀ v ∈ optionalVars, truthyStr (env v) = false := by
      intro v hv
      rcases hes v hv with h1 | h1 <;> rw [h1] <;> rfl
    obtain ⟨fb, p, hf, _, rfl⟩ := buildConfig_ok_inv env cfg h
    have hinit : firebaseInit env = .obj [] := by
      unfold firebaseInit
      rw [hfalse "FIREBASE_CONFIG_JSON" (by decide)]
      rfl
    rw [hinit, firebaseFill_empty env] at hf
    have hvf : varsFields env firebase_env_mapping = [] := by
      have e01 := hfalse "FIREBASE_TYPE" (by decide)
      have e02 := hfalse "FIREBASE_PROJECT_ID" (by decide)
      have e03 := hfalse "FIREBASE_PRIVATE_KEY_ID" (by decide)
      have e04 := hfalse "FIREBASE_PRIVATE_KEY" (by decide)
      have e05 := hfalse "FIREBASE_CLIENT_EMAIL" (by decide)
      have e06 := hfalse "FIREBASE_CLIENT_ID" (by decide)
      have e07 := hfalse "FIREBASE_AUTH_URI" (by decide)
      have e08 := hfalse "FIREBASE_TOKEN_URI" (by decide)
      have e09 := hfalse "FIREBASE_AUTH_PROVIDER_CERT_URL" (by decide)
      have e10 := hfalse "FIREBASE_CLIENT_CERT_URL" (by decide)
      have e11 := hfalse "FIREBASE_WEB_API_KEY" (by decide)
      unfold varsFields firebase_env_mapping
      simp [e01, e02, e03, e04, e05, e06, e07, e08, e09, e10, e11]
    have hfb : fb = Json.obj [] := by
      have := (Except.ok.inj hf).symm
      rwa [hvf] at this
    subst hfb
    refine ⟨?_, ?_, ?_⟩
    · rw [lookup_mkConfig_anthropic,
        if_neg (by rw [hfalse "ANTHROPIC_API_KEY" (by decide)]; exact fun hh => nomatch hh)]
    · rw [lookup_mkConfig_firebase]
      rfl
    · rw [lookup_mkConfig_admin, if_pos]
      unfold adminPairs
      rw [hfalse "ADMIN_EMAIL" (by decide), hfalse "ADMIN_PASSWORD" (by decide),
        hfalse "ADMIN_KEY" (by decide)]
      rfl

/-- Witness for C9: emptying `ANTHROPIC_API_KEY` equals unsetting it,
and with `ADMIN_EMAIL` and `FIREBASE_PROJECT_ID` set to `""` the
`firebase` and `admin` sections are omitted. -/
theorem spec_c9_witness :
    buildConfig (setEnv emptyEnv "ANTHROPIC_API_KEY" "") =
      buildConfig (unsetEnv emptyEnv "ANTHROPIC_API_KEY") ∧
    lookupKey [("aws", Json.obj [("region", Json.str "us-east-1")]),
      ("app", Json.obj [("mode", Json.str "production"),
        ("port", Json.num 8501 0), ("host", Json.str "0.0.0.0"),
        ("debug", Json.bool false)])] "firebase" = none ∧
    lookupKey [("aws", Json.obj [("region", Json.str "us-east-1")]),
      ("app", Json.obj [("mode", Json.str "production"),
        ("port", Json.num 8501 0), ("host", Json.str "0.0.0.0"),
        ("debug", Json.bool false)])] "admin" = none :=
  ⟨spec_c9.1 emptyEnv "ANTHROPIC_API_KEY" (by decide),
   (spec_c9.2 (envOf [("ADMIN_EMAIL", ""), ("FIREBASE_PROJECT_ID", "")]) _
     (by decide) (by rfl)).2.1,
   (spec_c9.2 (envOf [("ADMIN_EMAIL", ""), ("FIREBASE_PROJECT_ID", "")]) _
     (by decide) (by rfl)).2.2⟩

end EC2
